import Mathlib

/-!
Shallow embedding of the ELECTRA TensorFlow-to-Gluon checkpoint conversion
script (scripts/conversion_toolkits/convert_electra.py): the rewrite-rule
table CONVERT_MAP, the name-mapping engine get_name_map, the per-key tensor
materialization loop, the fused query/key/value merger convert_qkv_weights,
the completeness-validation regex check, and the config translator
convert_tf_config / convert_tf_assets.

Python strings are modelled as Lean String (a wrapper around List Char);
Python str.replace, substring membership and endswith are re-implemented
below with the same semantics on the inputs that occur in the script.
Tensors are modelled as integer-valued rank-1 or rank-2 arrays, which covers
every tensor the merger and materializer manipulate.  Python exceptions
(NotImplementedError, assertion failures) are modelled as Option results,
none meaning the raise.
-/

namespace ElectraConvert

/-- Char-list comparison: true when the first list is an initial segment of
the second. -/
def leadsWith : List Char → List Char → Bool
  | [], _ => true
  | _ :: _, [] => false
  | a :: as, b :: bs => (a == b) && leadsWith as bs

/-- True when the first list is a final segment of the second. -/
def trailsWith (sfx l : List Char) : Bool :=
  leadsWith sfx.reverse l.reverse

/-- Python str.replace scanner with explicit fuel.  One unit of fuel is spent
per character position examined, so fuel equal to the string length is always
enough. -/
def replaceGoF (old new : List Char) : Nat → List Char → List Char
  | 0, l => l
  | _ + 1, [] => []
  | fuel + 1, c :: rest =>
    if leadsWith old (c :: rest) then
      new ++ replaceGoF old new fuel (rest.drop (old.length - 1))
    else
      c :: replaceGoF old new fuel rest

/-- Python str.replace on character lists: replaces every non-overlapping
occurrence, scanning left to right.  CONVERT_MAP contains no empty match
pattern, so the Python empty-pattern corner case is mapped to the identity. -/
def replaceAll (s old new : List Char) : List Char :=
  if old.isEmpty then s else replaceGoF old new s.length s

/-- Python s.replace(old, new) on strings. -/
def pyReplace (s old new : String) : String :=
  ⟨replaceAll s.toList old.toList new.toList⟩

/-- Substring occurrence on char lists, as in Python sub in s. -/
def occursIn (sub : List Char) : List Char → Bool
  | [] => sub.isEmpty
  | c :: rest => leadsWith sub (c :: rest) || occursIn sub rest

/-- Python sub in s for strings. -/
def pyContains (s sub : String) : Bool := occursIn sub.toList s.toList

/-- Python s.endswith(sfx). -/
def pyEndsWith (s sfx : String) : Bool := trailsWith sfx.toList s.toList

/-- Decimal digit character, 48 + n is the code point of the digit n. -/
def digitChar (n : Nat) : Char := Char.ofNat (48 + n)

/-- Decimal digits of a natural number with explicit fuel; fuel n + 1 always
suffices for printing n. -/
def natDigitsF : Nat → Nat → List Char
  | 0, _ => []
  | fuel + 1, n =>
    if n < 10 then [digitChar n] else natDigitsF fuel (n / 10) ++ [digitChar (n % 10)]

/-- Decimal rendering of a natural number, as Python str.format produces for
the layer index. -/
def natStr (n : Nat) : String := ⟨natDigitsF (n + 1) n⟩

/-! ### The rewrite-rule table (CONVERT_MAP, lines 123-146 of the script) -/

/-- The ordered list of (match, replacement) substring rewrite rules. -/
def CONVERT_MAP : List (String × String) := [
  ("backbone_model.discriminator_predictions/dense_1", "rtd_encoder.2"),
  ("backbone_model.discriminator_predictions/dense", "rtd_encoder.0"),
  ("backbone_model.generator_predictions/dense", "mlm_decoder.0"),
  ("backbone_model.generator_predictions/LayerNorm", "mlm_decoder.2"),
  ("backbone_model.generator_predictions/output_bias", "mlm_decoder.3.bias"),
  ("electra/", ""),
  ("generator/", ""),
  ("embeddings_project", "embed_factorized_proj"),
  ("embeddings/word_embeddings", "word_embed.weight"),
  ("embeddings/token_type_embeddings", "token_type_embed.weight"),
  ("embeddings/position_embeddings", "token_pos_embed._embed.weight"),
  ("layer_", "all_encoder_layers."),
  ("embeddings/LayerNorm", "embed_layer_norm"),
  ("attention/output/LayerNorm", "layer_norm"),
  ("attention/output/dense", "attention_proj"),
  ("output/LayerNorm", "ffn.layer_norm"),
  ("LayerNorm", "layer_norm"),
  ("intermediate/dense", "ffn.ffn_1"),
  ("output/dense", "ffn.ffn_2"),
  ("output/", ""),
  ("kernel", "weight"),
  ("/", ".")]

/-- Sequential application of an ordered list of rewrite rules by literal
substring replacement (the loop for old, new in CONVERT_MAP). -/
def applyRules (rules : List (String × String)) (name : String) : String :=
  rules.foldl (fun acc p => pyReplace acc p.1 p.2) name

/-- Application of the full CONVERT_MAP table to one name. -/
def applyConvertMap (name : String) : String := applyRules CONVERT_MAP name

/-! ### The name-mapping engine (get_name_map, lines 149-192) -/

/-- Outcome of one loop iteration of get_name_map on one source name. -/
inductive StepResult where
  | notImplemented
  | skip
  | entry (v : Option String)
deriving DecidableEq

/-- The tail of a loop iteration after the role filter: the sentinel for the
fused query/key/value members (source names containing the self-attention
scope), otherwise the rewritten target name. -/
def sentinelOrRewrite (sourceName targetName : String) : Option String :=
  if pyContains sourceName "self/" then none
  else some (applyConvertMap targetName)

/-- One loop iteration of get_name_map: role filter, then sentinel check,
then rewrite.  An unrecognized convert_type raises NotImplementedError. -/
def nameMapStep (convertType sourceName : String) : StepResult :=
  if convertType = "backbone" then
    if pyContains sourceName "electra" then
      .entry (sentinelOrRewrite sourceName sourceName)
    else .skip
  else if convertType = "disc" then
    if pyContains sourceName "generator" then .skip
    else .entry (sentinelOrRewrite sourceName ("backbone_model." ++ sourceName))
  else if convertType = "gen" then
    if pyContains sourceName "generator" then
      .entry (sentinelOrRewrite sourceName ("backbone_model." ++ sourceName))
    else .skip
  else .notImplemented

/-- get_name_map: builds the NameMap as an association list in input order;
none models the NotImplementedError raise, which fires on the first name
once the convert_type is unrecognized. -/
def getNameMap : List String → String → Option (List (String × Option String))
  | [], _ => some []
  | s :: rest, convertType =>
    match nameMapStep convertType s with
    | .notImplemented => none
    | .skip => getNameMap rest convertType
    | .entry v => (getNameMap rest convertType).map (fun m => (s, v) :: m)

/-! ### Tensors and numpy operations used by the script -/

/-- A checkpoint tensor: rank 1 (biases) or rank 2 (kernels, embeddings). -/
inductive Tensor where
  | t1 (data : List Int)
  | t2 (data : List (List Int))
deriving DecidableEq

/-- numpy .T: transposes the two axes of a rank-2 tensor and is the identity
on a rank-1 tensor. -/
def Tensor.T : Tensor → Tensor
  | .t1 d => .t1 d
  | .t2 d => .t2 d.transpose

/-- Extract the rank-1 payloads of a tensor list, or fail. -/
def allT1 : List Tensor → Option (List (List Int))
  | [] => some []
  | .t1 d :: rest => (allT1 rest).map (fun ds => d :: ds)
  | .t2 _ :: _ => none

/-- Extract the rank-2 payloads of a tensor list, or fail. -/
def allT2 : List Tensor → Option (List (List (List Int)))
  | [] => some []
  | .t2 d :: rest => (allT2 rest).map (fun ds => d :: ds)
  | .t1 _ :: _ => none

/-- Horizontal (axis 1) join of rank-2 payloads; fails unless the row counts
agree, as numpy does. -/
def hjoin (acc : List (List Int)) : List (List (List Int)) → Option (List (List Int))
  | [] => some acc
  | m :: rest =>
    if m.length = acc.length then hjoin (List.zipWith (· ++ ·) acc m) rest else none

/-- np.concatenate on the two shapes the script exercises: rank-1 tensors
along axis 0 and rank-2 tensors along axis 1.  Any other combination is a
numpy error, modelled as none. -/
def npConcatenate (ts : List Tensor) (axis : Nat) : Option Tensor :=
  if axis = 0 then
    (allT1 ts).bind fun ds =>
      match ds with
      | [] => none
      | _ => some (.t1 ds.flatten)
  else if axis = 1 then
    (allT2 ts).bind fun ms =>
      match ms with
      | [] => none
      | m :: rest => (hjoin m rest).map .t2
  else none

/-! ### The per-key materialization loop (lines 318-328) -/

/-- The value assigned for one (source, target) pair: the source tensor,
transposed exactly when the source name ends with kernel. -/
def assignedValue (srcName : String) (t : Tensor) : Tensor :=
  if pyEndsWith srcName "kernel" then t.T else t

/-- The list of (target name, tensor) writes performed by the per-key loop:
sentinel entries are skipped, every other entry is assigned. -/
def materialize (nameMap : List (String × Option String)) (tfParams : String → Tensor) :
    List (String × Tensor) :=
  nameMap.filterMap fun p => p.2.map (fun dst => (dst, assignedValue p.1 (tfParams p.1)))

/-! ### The fused query/key/value merger (convert_qkv_weights and the
per-layer prefix loop, lines 331-360 and 377-389) -/

/-- convert_qkv_weights: the two writes it performs, or none when a source
tensor is absent or numpy rejects the concatenation. -/
def convert_qkv_weights (tfParams : String → Option Tensor) (tfPre mxPre : String) :
    Option (List (String × Tensor)) := do
  let qw ← tfParams (tfPre ++ "/query/kernel")
  let kw ← tfParams (tfPre ++ "/key/kernel")
  let vw ← tfParams (tfPre ++ "/value/kernel")
  let w ← npConcatenate [qw, kw, vw] 1
  let qb ← tfParams (tfPre ++ "/query/bias")
  let kb ← tfParams (tfPre ++ "/key/bias")
  let vb ← tfParams (tfPre ++ "/value/bias")
  let b ← npConcatenate [qb, kb, vb] 0
  some [(mxPre ++ ".attn_qkv.weight", w.T), (mxPre ++ ".attn_qkv.bias", b)]

/-- The gluon-side name prefix of layer i for a conversion role, from the
per-layer loop of convert_tf_model. -/
def mergerMx (convertType : String) (i : Nat) : String :=
  (if convertType = "gen" ∨ convertType = "disc" then "backbone_model." else "") ++
    "encoder.all_encoder_layers." ++ natStr i

/-- The tensorflow-side name prefix of layer i for a conversion role. -/
def mergerTf (convertType : String) (i : Nat) : String :=
  if convertType = "gen" then "generator/encoder/layer_" ++ natStr i ++ "/attention/self"
  else "electra/encoder/layer_" ++ natStr i ++ "/attention/self"

/-- One iteration of the per-layer merger loop. -/
def mergerStep (tfParams : String → Option Tensor) (convertType : String) (i : Nat) :
    Option (List (String × Tensor)) :=
  convert_qkv_weights tfParams (mergerTf convertType i) (mergerMx convertType i)

/-- All target names the merger loop writes for a role, layers 0 to
numLayers - 1. -/
def mergerFilled (convertType : String) (numLayers : Nat) : List String :=
  (List.range numLayers).flatMap fun i =>
    [mergerMx convertType i ++ ".attn_qkv.weight", mergerMx convertType i ++ ".attn_qkv.bias"]

/-! ### The completeness validator (lines 362-375) -/

/-- The generator parameters already initialized in the discriminator
(disc_embed_params). -/
def discEmbedParams : List String :=
  ["backbone_model.embed_layer_norm.beta",
   "backbone_model.embed_layer_norm.gamma",
   "backbone_model.token_pos_embed._embed.weight",
   "backbone_model.token_type_embed.weight",
   "mlm_decoder.3.weight",
   "backbone_model.word_embed.weight"]

/-- The constant fragments of the leftover-key regex. -/
def encPre : List Char := "encoder.all_encoder_layers.".toList

/-- The optional backbone marker of the leftover-key regex. -/
def bmPre : List Char := "backbone_model.".toList

/-- Matching of the regex core: encoder.all_encoder_layers. then one or more
digits then .attn_qkv. then weight or bias, anchored at both ends. -/
def fusedCore (l : List Char) : Bool :=
  if leadsWith encPre l then
    let r := l.drop encPre.length
    let ds := r.takeWhile Char.isDigit
    let rest := r.dropWhile Char.isDigit
    !ds.isEmpty && ((rest == ".attn_qkv.weight".toList) || (rest == ".attn_qkv.bias".toList))
  else false

/-- The full leftover-key regex of line 374, with its optional
backbone_model. marker. -/
def fusedPattern (s : String) : Bool :=
  fusedCore s.toList || (leadsWith bmPre s.toList && fusedCore (s.toList.drop bmPre.length))

/-- The keys remaining in all_keys after the per-key loop removed every
directly assigned target name. -/
def remainingKeys (allKeys touched : List String) : List String :=
  allKeys.filter fun k => !(touched.contains k)

/-- The validation loop of lines 371-375: every remaining key must be a
generator-role tied parameter or match the fused-projection regex. -/
def validatorPasses (remaining : List String) (convertType : String) : Bool :=
  remaining.all fun key =>
    (convertType == "gen" && discEmbedParams.contains key) || fusedPattern key

/-! ### The config translator (convert_tf_config and convert_tf_assets,
lines 75-120) -/

/-- The source hyperparameter dictionary fields the translator reads. -/
structure ConfigDict where
  vocab_size : Nat
  hidden_size : Nat
  embedding_size : Nat
  intermediate_size : Nat
  max_position_embeddings : Nat
  num_attention_heads : Nat
  num_hidden_layers : Nat
  hidden_act : String
  type_vocab_size : Nat
  hidden_dropout_prob : ℚ
  attention_probs_dropout_prob : ℚ
  initializer_range : ℚ
  generator_hidden_size : ℚ
  generator_layers : ℚ
deriving DecidableEq

/-- The target configuration; frozen records that cfg.freeze() ran. -/
structure ElectraCfg where
  vocab_size : Nat
  units : Nat
  embed_size : Nat
  hidden_size : Nat
  max_length : Nat
  num_heads : Nat
  num_layers : Nat
  pos_embed_type : String
  activation : String
  layer_norm_eps : ℚ
  num_token_types : Nat
  hidden_dropout_prob : ℚ
  attention_dropout_prob : ℚ
  dtype : String
  generator_layers_scale : ℚ
  generator_units_scale : ℚ
  initializer_weight : String × ℚ × ℚ
  initializer_bias : String
  version : Nat
  frozen : Bool
deriving DecidableEq

/-- convert_tf_config: the assert on line 78 is modelled as the none case,
otherwise the frozen target configuration is produced. -/
def convert_tf_config (configDict : ConfigDict) (vocabSize : Nat) : Option ElectraCfg :=
  if vocabSize = configDict.vocab_size then
    some { vocab_size := vocabSize,
           units := configDict.hidden_size,
           embed_size := configDict.embedding_size,
           hidden_size := configDict.intermediate_size,
           max_length := configDict.max_position_embeddings,
           num_heads := configDict.num_attention_heads,
           num_layers := configDict.num_hidden_layers,
           pos_embed_type := "learned",
           activation := configDict.hidden_act,
           layer_norm_eps := 1 / 1000000000000,
           num_token_types := configDict.type_vocab_size,
           hidden_dropout_prob := configDict.hidden_dropout_prob,
           attention_dropout_prob := configDict.attention_probs_dropout_prob,
           dtype := "float32",
           generator_layers_scale := configDict.generator_layers,
           generator_units_scale := configDict.generator_hidden_size,
           initializer_weight := ("truncnorm", 0, configDict.initializer_range),
           initializer_bias := "zeros",
           version := 1,
           frozen := true }
  else none

/-- convert_tf_assets restricted to its core: the vocabulary size is the line
count of the vocabulary file, fed to convert_tf_config. -/
def convert_tf_assets (vocabLines : List String) (configDict : ConfigDict) :
    Option ElectraCfg :=
  convert_tf_config configDict vocabLines.length

/-- The lexicographically sorted source-name list the checkpoint reader hands
to the engine (sorted(var_to_shape_map), line 50, and sorted(tf_params.keys()),
line 231). -/
def sortedNames (names : List String) : List String :=
  List.insertionSort (· ≤ ·) names

/-- The three recognized conversion roles. -/
def roleValid (convertType : String) : Prop :=
  convertType = "backbone" ∨ convertType = "disc" ∨ convertType = "gen"

/-- A source parameter name whose rewritten generator-role target is one of
the parameters the generator shares with the discriminator. -/
def tiedToDiscEmbedding (s : String) : Bool :=
  discEmbedParams.contains (applyConvertMap ("backbone_model." ++ s))

/-- The role filter as a predicate on source names: which names survive into
the NameMap for a recognized role. -/
def keepName (convertType s : String) : Bool :=
  if convertType = "backbone" then pyContains s "electra"
  else if convertType = "disc" then !(pyContains s "generator")
  else pyContains s "generator"

/-- The NameMap value attached to a surviving source name for a recognized
role: the fused-projection sentinel, or the rewritten (and, for disc and gen,
backbone-prefixed) target name. -/
def entryVal (convertType s : String) : Option String :=
  sentinelOrRewrite s (if convertType = "backbone" then s else "backbone_model." ++ s)

/-- A concrete hyperparameter dictionary used to instantiate the config
translator theorems. -/
def cfgDictInst : ConfigDict :=
  { vocab_size := 50, hidden_size := 8, embedding_size := 4, intermediate_size := 16,
    max_position_embeddings := 32, num_attention_heads := 2, num_hidden_layers := 2,
    hidden_act := "gelu", type_vocab_size := 2, hidden_dropout_prob := 1 / 10,
    attention_probs_dropout_prob := 1 / 10, initializer_range := 1 / 50,
    generator_hidden_size := 1 / 4, generator_layers := 1 }

/-- A concrete one-layer checkpoint fragment holding the six attention
projection tensors of layer 0. -/
def qkvParamsInst : String → Option Tensor := fun n =>
  if n = "electra/encoder/layer_0/attention/self/query/kernel" then some (.t2 [[1], [2]])
  else if n = "electra/encoder/layer_0/attention/self/key/kernel" then some (.t2 [[3], [4]])
  else if n = "electra/encoder/layer_0/attention/self/value/kernel" then some (.t2 [[5], [6]])
  else if n = "electra/encoder/layer_0/attention/self/query/bias" then some (.t1 [7])
  else if n = "electra/encoder/layer_0/attention/self/key/bias" then some (.t1 [8])
  else if n = "electra/encoder/layer_0/attention/self/value/bias" then some (.t1 [9])
  else none

/-- The CONVERT_MAP table with the rules at positions 13 and 15 exchanged:
the specific attention/output/LayerNorm rule now runs after the more general
output/LayerNorm rule. -/
def CONVERT_MAP_PERM : List (String × String) := [
  ("backbone_model.discriminator_predictions/dense_1", "rtd_encoder.2"),
  ("backbone_model.discriminator_predictions/dense", "rtd_encoder.0"),
  ("backbone_model.generator_predictions/dense", "mlm_decoder.0"),
  ("backbone_model.generator_predictions/LayerNorm", "mlm_decoder.2"),
  ("backbone_model.generator_predictions/output_bias", "mlm_decoder.3.bias"),
  ("electra/", ""),
  ("generator/", ""),
  ("embeddings_project", "embed_factorized_proj"),
  ("embeddings/word_embeddings", "word_embed.weight"),
  ("embeddings/token_type_embeddings", "token_type_embed.weight"),
  ("embeddings/position_embeddings", "token_pos_embed._embed.weight"),
  ("layer_", "all_encoder_layers."),
  ("embeddings/LayerNorm", "embed_layer_norm"),
  ("output/LayerNorm", "ffn.layer_norm"),
  ("attention/output/dense", "attention_proj"),
  ("attention/output/LayerNorm", "layer_norm"),
  ("LayerNorm", "layer_norm"),
  ("intermediate/dense", "ffn.ffn_1"),
  ("output/dense", "ffn.ffn_2"),
  ("output/", ""),
  ("kernel", "weight"),
  ("/", ".")]

/-- A source name on which the rule order is observable. -/
def orderSensName : String := "electra/encoder/layer_0/attention/output/LayerNorm/gamma"

/-! ### Helper lemmas -/

theorem toList_append (a b : String) : (a ++ b).toList = a.toList ++ b.toList := by
  cases a
  cases b
  rfl

theorem leadsWith_append_self (l r : List Char) : leadsWith l (l ++ r) = true := by
  induction l with
  | nil => rfl
  | cons a as ih => simp [leadsWith, ih]

theorem takeWhile_append_eq (p : Char → Bool) (l r : List Char)
    (h : ∀ x ∈ l, p x = true) (hr : r.takeWhile p = []) :
    (l ++ r).takeWhile p = l ∧ (l ++ r).dropWhile p = r := by
  induction l with
  | nil =>
    refine ⟨hr, ?_⟩
    cases r with
    | nil => rfl
    | cons c r' =>
      simp only [List.takeWhile_cons] at hr
      simp only [List.nil_append, List.dropWhile_cons]
      split at hr
      · exact (List.cons_ne_nil _ _ hr).elim
      · simp_all
  | cons a as ih =>
    have pa := h a (List.mem_cons_self a as)
    have ⟨h1, h2⟩ := ih (fun x hx => h x (List.mem_cons_of_mem a hx))
    simp [List.takeWhile_cons, List.dropWhile_cons, pa, h1, h2]

theorem digitChar_isDigit (n : Nat) (h : n < 10) : (digitChar n).isDigit = true := by
  interval_cases n <;> decide

theorem natDigitsF_all_digit :
    ∀ (fuel n : Nat), ∀ c ∈ natDigitsF fuel n, c.isDigit = true := by
  intro fuel
  induction fuel with
  | zero => intro n c hc; simp [natDigitsF] at hc
  | succ f ih =>
    intro n c hc
    unfold natDigitsF at hc
    split at hc
    · rename_i hn
      simp only [List.mem_singleton] at hc
      exact hc ▸ digitChar_isDigit n hn
    · simp only [List.mem_append, List.mem_singleton] at hc
      rcases hc with hc | hc
      · exact ih (n / 10) c hc
      · exact hc ▸ digitChar_isDigit (n % 10) (Nat.mod_lt n (by omega))

theorem natDigits_ne_nil (n : Nat) : natDigitsF (n + 1) n ≠ [] := by
  unfold natDigitsF
  split <;> simp

theorem fusedCore_digits (ds : List Char) (h1 : ds ≠ [])
    (h2 : ∀ c ∈ ds, c.isDigit = true) (tl : List Char)
    (h3 : tl = ".attn_qkv.weight".toList ∨ tl = ".attn_qkv.bias".toList) :
    fusedCore (encPre ++ (ds ++ tl)) = true := by
  have hlw := leadsWith_append_self encPre (ds ++ tl)
  have htk : tl.takeWhile Char.isDigit = [] := by
    rcases h3 with h | h <;> subst h <;> decide
  obtain ⟨ht, hd⟩ := takeWhile_append_eq Char.isDigit ds tl h2 htk
  simp only [fusedCore, hlw, if_true, List.drop_left, ht, hd]
  rcases h3 with h | h <;> subst h <;> cases ds with
  | nil => exact absurd rfl h1
  | cons c cs => simp

theorem mergerMx_name_fused (ct : String) (i : Nat) (tl : String)
    (h3 : tl = ".attn_qkv.weight" ∨ tl = ".attn_qkv.bias") :
    fusedPattern (mergerMx ct i ++ tl) = true := by
  have h3' : tl.toList = ".attn_qkv.weight".toList ∨ tl.toList = ".attn_qkv.bias".toList := by
    rcases h3 with h | h <;> subst h <;> simp
  have hcore : fusedCore (encPre ++ (natDigitsF (i + 1) i ++ tl.toList)) = true :=
    fusedCore_digits _ (natDigits_ne_nil i) (natDigitsF_all_digit (i + 1) i) _ h3'
  unfold mergerMx fusedPattern
  split
  · simp only [Bool.or_eq_true, Bool.and_eq_true]
    right
    have hl : (("backbone_model." ++ "encoder.all_encoder_layers." ++ natStr i) ++ tl).toList
        = bmPre ++ (encPre ++ (natDigitsF (i + 1) i ++ tl.toList)) := by
      simp [toList_append, natStr, bmPre, encPre, List.append_assoc]
    rw [hl]
    exact ⟨leadsWith_append_self _ _, by rw [List.drop_left]; exact hcore⟩
  · simp only [Bool.or_eq_true]
    left
    have hl : (("" ++ "encoder.all_encoder_layers." ++ natStr i) ++ tl).toList
        = encPre ++ (natDigitsF (i + 1) i ++ tl.toList) := by
      simp [toList_append, natStr, encPre, List.append_assoc]
    rw [hl]
    exact hcore

theorem mem_mergerFilled_fused (ct : String) (numLayers : Nat) (k : String)
    (hk : k ∈ mergerFilled ct numLayers) : fusedPattern k = true := by
  simp only [mergerFilled, List.mem_flatMap, List.mem_range] at hk
  obtain ⟨i, _, hik⟩ := hk
  simp only [List.mem_cons, List.mem_singleton] at hik
  rcases hik with h | h | h
  · exact h ▸ mergerMx_name_fused ct i _ (Or.inl rfl)
  · exact h ▸ mergerMx_name_fused ct i _ (Or.inr rfl)
  · exact absurd h (by simp)

theorem getNameMap_entry_mem (names : List String) (ct : String)
    (m : List (String × Option String)) (hm : getNameMap names ct = some m)
    (s : String) (v : Option String) (hmem : (s, v) ∈ m) :
    nameMapStep ct s = .entry v := by
  induction names generalizing m with
  | nil =>
    simp only [getNameMap, Option.some.injEq] at hm
    subst hm
    exact absurd hmem (List.not_mem_nil _)
  | cons a rest ih =>
    simp only [getNameMap] at hm
    cases hstep : nameMapStep ct a <;> rw [hstep] at hm
    · exact absurd hm (by simp)
    · exact ih m hm hmem
    · rename_i v'
      obtain ⟨m', hm', heq⟩ := Option.map_eq_some'.mp hm
      subst heq
      rcases List.mem_cons.mp hmem with h | h
      · obtain ⟨h1, h2⟩ := Prod.mk.injEq .. ▸ h
        exact h1 ▸ h2 ▸ hstep
      · exact ih m' hm' h

theorem nameMapStep_entry_sentinel (ct s : String) (v : Option String)
    (h : nameMapStep ct s = .entry v) : v = none ↔ pyContains s "self/" = true := by
  unfold nameMapStep at h
  split at h
  · split at h
    · cases h
      unfold sentinelOrRewrite
      split <;> simp_all
    · exact absurd h (by simp)
  · split at h
    · split at h
      · exact absurd h (by simp)
      · cases h
        unfold sentinelOrRewrite
        split <;> simp_all
    · split at h
      · split at h
        · cases h
          unfold sentinelOrRewrite
          split <;> simp_all
        · exact absurd h (by simp)
      · exact absurd h (by simp)

theorem getNameMap_valid (ct : String) (hct : roleValid ct) (names : List String) :
    getNameMap names ct =
      some ((names.filter (keepName ct)).map fun s => (s, entryVal ct s)) := by
  induction names with
  | nil => rfl
  | cons s rest ih =>
    have hstep : nameMapStep ct s =
        if keepName ct s then .entry (entryVal ct s) else .skip := by
      rcases hct with h | h | h <;> subst h
      · simp only [nameMapStep, keepName, entryVal, reduceIte]
      · simp only [nameMapStep, keepName, entryVal, reduceIte]
        by_cases hg : pyContains s "generator" = true <;> simp [hg]
      · simp only [nameMapStep, keepName, entryVal, reduceIte]
        by_cases hg : pyContains s "generator" = true <;> simp [hg]
    simp only [getNameMap, hstep, List.filter_cons]
    by_cases hk : keepName ct s = true
    · simp only [hk, if_true, reduceIte, ih, Option.map_some', List.map_cons]
    · simp only [Bool.not_eq_true] at hk
      simp only [hk, Bool.false_eq_true, reduceIte, ih]

theorem lookup_graph (l : List String) (f : String → Option String) (s : String) :
    List.lookup s (l.map fun x => (x, f x)) = if s ∈ l then some (f s) else none := by
  induction l with
  | nil => simp
  | cons a rest ih =>
    simp only [List.map_cons, List.lookup_cons]
    by_cases h : s = a
    · subst h
      simp
    · have : (s == a) = false := beq_eq_false_iff_ne.mpr h
      simp [this, ih, h]

theorem lookup_getNameMap (ct : String) (hct : roleValid ct) (names : List String)
    (m : List (String × Option String)) (hm : getNameMap names ct = some m) (s : String) :
    ((List.lookup s m).isSome = true ↔ s ∈ names ∧ keepName ct s = true) ∧
    (∀ v, List.lookup s m = some (some v) → entryVal ct s = some v) := by
  rw [getNameMap_valid ct hct names] at hm
  injection hm with hm
  subst hm
  rw [lookup_graph]
  constructor
  · by_cases hmem : s ∈ names.filter (keepName ct)
    · rw [if_pos hmem]
      simp only [Option.isSome_some, true_iff]
      exact List.mem_filter.mp hmem
    · rw [if_neg hmem]
      simp only [Option.isSome_none, Bool.false_eq_true, false_iff]
      intro hc
      exact hmem (List.mem_filter.mpr hc)
  · intro v hv
    by_cases hmem : s ∈ names.filter (keepName ct)
    · rw [if_pos hmem] at hv
      exact Option.some.inj hv
    · rw [if_neg hmem] at hv
      exact absurd hv (by simp)

theorem entryVal_some_of_ne (ct s : String) (hne : ct ≠ "backbone") (v : String)
    (h : entryVal ct s = some v) : v = applyConvertMap ("backbone_model." ++ s) := by
  unfold entryVal sentinelOrRewrite at h
  rw [if_neg hne] at h
  by_cases hc : pyContains s "self/" = true
  · rw [if_pos hc] at h
    exact absurd h (by simp)
  · rw [if_neg hc] at h
    exact (Option.some.inj h).symm

/-! ### Claim theorems -/

/-- C4: for every source name the role filter lets through, the NameMap entry
is the sentinel none exactly when the source name contains the self-attention
scope self/, and no rewrite-rule output is attached to such a name. -/
theorem sentinelIffSelfScope (names : List String) (ct : String)
    (m : List (String × Option String)) (hm : getNameMap names ct = some m)
    (s : String) (v : Option String) (hmem : (s, v) ∈ m) :
    v = none ↔ pyContains s "self/" = true :=
  nameMapStep_entry_sentinel ct s v (getNameMap_entry_mem names ct m hm s v hmem)

set_option maxHeartbeats 1000000 in
/-- Instantiation of sentinelIffSelfScope on a one-name checkpoint whose name
lies in the self-attention scope. -/
theorem sentinelIffSelfScopeInst :
    ((none : Option String) = none ↔ pyContains "electra/self/a" "self/" = true) :=
  sentinelIffSelfScope ["electra/self/a"] "backbone"
    [("electra/self/a", none)] (by decide) "electra/self/a" none (by simp)

/-- C5: the NameMap domains per role: backbone keeps exactly the names
containing electra; disc keeps exactly the names not containing generator
and gen exactly those containing it, and for disc and gen every non-sentinel
target is the rewrite of the backbone_model.-prefixed source name. -/
theorem roleFilterDomains (names : List String) (s : String) :
    (∀ m, getNameMap names "backbone" = some m →
      ((List.lookup s m).isSome = true ↔ s ∈ names ∧ pyContains s "electra" = true)) ∧
    (∀ m, getNameMap names "disc" = some m →
      (((List.lookup s m).isSome = true ↔ s ∈ names ∧ pyContains s "generator" = false) ∧
        ∀ v, List.lookup s m = some (some v) →
          v = applyConvertMap ("backbone_model." ++ s))) ∧
    (∀ m, getNameMap names "gen" = some m →
      (((List.lookup s m).isSome = true ↔ s ∈ names ∧ pyContains s "generator" = true) ∧
        ∀ v, List.lookup s m = some (some v) →
          v = applyConvertMap ("backbone_model." ++ s))) := by
  refine ⟨?_, ?_, ?_⟩
  · intro m hm
    have h := lookup_getNameMap "backbone" (Or.inl rfl) names m hm s
    simpa [keepName] using h.1
  · intro m hm
    have h := lookup_getNameMap "disc" (Or.inr (Or.inl rfl)) names m hm s
    refine ⟨?_, fun v hv => entryVal_some_of_ne "disc" s (by decide) v (h.2 v hv)⟩
    have := h.1
    simpa [keepName, Bool.not_eq_true'] using this
  · intro m hm
    have h := lookup_getNameMap "gen" (Or.inr (Or.inr rfl)) names m hm s
    refine ⟨?_, fun v hv => entryVal_some_of_ne "gen" s (by decide) v (h.2 v hv)⟩
    have := h.1
    simpa [keepName] using this

set_option maxHeartbeats 2000000 in
/-- Instantiation of roleFilterDomains: a generator-scope name is in the gen
NameMap domain. -/
theorem roleFilterDomainsInst :
    (List.lookup "generator"
        [("generator", some "backbone_model.generator")]).isSome = true ↔
      "generator" ∈ ["generator"] ∧ pyContains "generator" "generator" = true :=
  ((roleFilterDomains ["generator"] "generator").2.2
    [("generator", some "backbone_model.generator")] (by decide)).1

set_option maxHeartbeats 4000000 in
/-- C6 counterexample: the discriminator-tied embedding name
electra/embeddings/word_embeddings is a tied source parameter, yet the
generator-role NameMap on a checkpoint holding exactly this name is empty:
the name is absent, not mapped to the sentinel. -/
theorem tiedEmbeddingSentinelCounterex :
    tiedToDiscEmbedding "electra/embeddings/word_embeddings" = true ∧
    getNameMap ["electra/embeddings/word_embeddings"] "gen" = some [] := by
  constructor <;> decide

set_option maxHeartbeats 2000000 in
/-- C6 amended: for the generator role, a source name tied to the
discriminator embedding parameters that lies outside the generator namespace
is dropped by the role filter and therefore absent from the NameMap; the
sentinel is reserved for the self/ fused-projection members. -/
theorem tiedEmbeddingAbsentFromGenMap (names : List String) (s : String)
    (m : List (String × Option String)) (hm : getNameMap names "gen" = some m)
    (hs : s ∈ names) (ht : tiedToDiscEmbedding s = true)
    (hng : pyContains s "generator" = false) :
    List.lookup s m = none := by
  clear ht hs
  rw [getNameMap_valid "gen" (Or.inr (Or.inr rfl)) names] at hm
  injection hm with hm
  subst hm
  rw [lookup_graph, if_neg]
  intro hmem
  have hk := (List.mem_filter.mp hmem).2
  have hkeq : keepName "gen" s = pyContains s "generator" := rfl
  rw [hkeq, hng] at hk
  exact Bool.false_ne_true hk

set_option maxHeartbeats 4000000 in
/-- Instantiation of tiedEmbeddingAbsentFromGenMap on the one-name tied
checkpoint. -/
theorem tiedEmbeddingAbsentFromGenMapInst :
    List.lookup "electra/embeddings/word_embeddings"
      ([] : List (String × Option String)) = none :=
  tiedEmbeddingAbsentFromGenMap ["electra/embeddings/word_embeddings"]
    "electra/embeddings/word_embeddings" [] (by decide) (by simp) (by decide) (by decide)

/-- C10 counterexample: with an empty source-name list and an unrecognized
role the engine returns an empty NameMap and raises nothing, because the
NotImplementedError sits inside the per-name loop. -/
theorem invalidRoleEmptyCounterex : getNameMap [] "invalid" = some [] := rfl

/-- C10 amended: for every nonempty source-name list, an unrecognized
conversion role makes the engine raise NotImplementedError on the first name
and produce no NameMap. -/
theorem invalidRoleRaises (names : List String) (ct : String) (hne : names ≠ [])
    (hct : ¬ roleValid ct) : getNameMap names ct = none := by
  cases names with
  | nil => exact absurd rfl hne
  | cons s rest =>
    rw [roleValid] at hct
    push_neg at hct
    have hstep : nameMapStep ct s = .notImplemented := by
      unfold nameMapStep
      rw [if_neg hct.1, if_neg hct.2.1, if_neg hct.2.2]
    simp only [getNameMap, hstep]

/-- Instantiation of invalidRoleRaises on a one-name list and a bogus role. -/
theorem invalidRoleRaisesInst : getNameMap ["x"] "bogus" = none :=
  invalidRoleRaises ["x"] "bogus" (by simp) (by unfold roleValid; decide)

/-- C8: the NameMap is a pure function of the source-name set and the role:
feeding the sorted name list of any two permutation-equivalent checkpoints
into the engine yields identical results, so nothing beyond the declared
lexicographic sort of the input names can influence the mapping. -/
theorem nameMapDeterministic (l1 l2 : List String) (ct : String)
    (hp : List.Perm l1 l2) :
    getNameMap (sortedNames l1) ct = getNameMap (sortedNames l2) ct := by
  have hs : sortedNames l1 = sortedNames l2 :=
    List.eq_of_perm_of_sorted
      ((List.perm_insertionSort _ l1).trans (hp.trans (List.perm_insertionSort _ l2).symm))
      (List.sorted_insertionSort _ l1) (List.sorted_insertionSort _ l2)
  rw [hs]

/-- Instantiation of nameMapDeterministic on two orderings of a two-name
checkpoint. -/
theorem nameMapDeterministicInst :
    getNameMap (sortedNames ["electra/b", "electra/a"]) "backbone" =
      getNameMap (sortedNames ["electra/a", "electra/b"]) "backbone" :=
  nameMapDeterministic ["electra/b", "electra/a"] ["electra/a", "electra/b"] "backbone"
    (List.Perm.swap "electra/a" "electra/b" [])

/-- C9: the config translator fails exactly when the vocabulary-file line
count disagrees with the checkpoint's configured vocabulary size, and on
agreement it returns a frozen configuration carrying that size. -/
theorem configVocabMismatchIff (configDict : ConfigDict) (vocabLines : List String) :
    ((convert_tf_assets vocabLines configDict).isSome = true ↔
      vocabLines.length = configDict.vocab_size) ∧
    (∀ cfg, convert_tf_assets vocabLines configDict = some cfg →
      cfg.frozen = true ∧ cfg.vocab_size = vocabLines.length) := by
  unfold convert_tf_assets convert_tf_config
  constructor
  · by_cases h : vocabLines.length = configDict.vocab_size
    · rw [if_pos h]
      simp [h]
    · rw [if_neg h]
      simp [h]
  · intro cfg hcfg
    by_cases h : vocabLines.length = configDict.vocab_size
    · rw [if_pos h] at hcfg
      cases hcfg
      exact ⟨rfl, rfl⟩
    · rw [if_neg h] at hcfg
      exact absurd hcfg (by simp)

/-- Instantiation of configVocabMismatchIff: a 50-line vocabulary against a
checkpoint declaring vocab_size 50 converts successfully. -/
theorem configVocabMismatchIffInst :
    (convert_tf_assets (List.replicate 50 "tok") cfgDictInst).isSome = true :=
  (configVocabMismatchIff cfgDictInst (List.replicate 50 "tok")).1.mpr (by decide)

/-- C3: the per-key loop assigns, for every non-sentinel NameMap pair, the
transposed source tensor exactly when the source name ends with kernel, and
the unchanged source tensor otherwise. -/
theorem materializerTransposeIffKernel (nameMap : List (String × Option String))
    (tfParams : String → Tensor) (s d : String) (hmem : (s, some d) ∈ nameMap) :
    (pyEndsWith s "kernel" = true →
      (d, (tfParams s).T) ∈ materialize nameMap tfParams) ∧
    (pyEndsWith s "kernel" = false →
      (d, tfParams s) ∈ materialize nameMap tfParams) := by
  constructor <;> intro hk <;>
    exact List.mem_filterMap.mpr ⟨(s, some d), hmem, by simp [assignedValue, hk]⟩

/-- Instantiation of materializerTransposeIffKernel: a kernel parameter is
stored transposed. -/
theorem materializerTransposeIffKernelInst :
    ("enc.weight", Tensor.t2 [[1, 3], [2, 4]]) ∈
      materialize [("enc/kernel", some "enc.weight")]
        (fun _ => Tensor.t2 [[1, 2], [3, 4]]) :=
  (materializerTransposeIffKernel [("enc/kernel", some "enc.weight")]
    (fun _ => Tensor.t2 [[1, 2], [3, 4]]) "enc/kernel" "enc.weight" (by simp)).1 (by decide)

/-- C2: for every layer and every role, the merger writes into the fused
weight slot the transpose of the axis-1 concatenation of the query, key and
value kernels, and into the fused bias slot the axis-0 concatenation of the
three biases with no transpose. -/
theorem fusedMergerWritesConcatTranspose (ct : String) (hct : roleValid ct) (i : Nat)
    (tfParams : String → Option Tensor)
    (qw kw vw : List (List Int)) (qb kb vb : List Int)
    (hqw : tfParams (mergerTf ct i ++ "/query/kernel") = some (.t2 qw))
    (hkw : tfParams (mergerTf ct i ++ "/key/kernel") = some (.t2 kw))
    (hvw : tfParams (mergerTf ct i ++ "/value/kernel") = some (.t2 vw))
    (hqb : tfParams (mergerTf ct i ++ "/query/bias") = some (.t1 qb))
    (hkb : tfParams (mergerTf ct i ++ "/key/bias") = some (.t1 kb))
    (hvb : tfParams (mergerTf ct i ++ "/value/bias") = some (.t1 vb))
    (hlk : kw.length = qw.length) (hlv : vw.length = qw.length) :
    mergerStep tfParams ct i =
      some [(mergerMx ct i ++ ".attn_qkv.weight",
              .t2 (List.zipWith (· ++ ·) (List.zipWith (· ++ ·) qw kw) vw).transpose),
            (mergerMx ct i ++ ".attn_qkv.bias", .t1 (qb ++ (kb ++ vb)))] := by
  clear hct
  have hj : hjoin qw [kw, vw] =
      some (List.zipWith (· ++ ·) (List.zipWith (· ++ ·) qw kw) vw) := by
    unfold hjoin
    rw [if_pos hlk]
    unfold hjoin
    rw [if_pos (by simp [List.length_zipWith, hlk, hlv])]
    rfl
  have hw : npConcatenate [.t2 qw, .t2 kw, .t2 vw] 1 =
      some (.t2 (List.zipWith (· ++ ·) (List.zipWith (· ++ ·) qw kw) vw)) := by
    unfold npConcatenate
    rw [if_neg (by omega), if_pos rfl]
    have h2 : allT2 [Tensor.t2 qw, Tensor.t2 kw, Tensor.t2 vw] = some [qw, kw, vw] := rfl
    rw [h2, Option.some_bind]
    show Option.map Tensor.t2 (hjoin qw [kw, vw]) = _
    rw [hj]
    rfl
  have hb : npConcatenate [.t1 qb, .t1 kb, .t1 vb] 0 =
      some (.t1 (qb ++ (kb ++ vb))) := by
    unfold npConcatenate
    rw [if_pos rfl]
    have h1 : allT1 [Tensor.t1 qb, Tensor.t1 kb, Tensor.t1 vb] = some [qb, kb, vb] := rfl
    rw [h1, Option.some_bind]
    show some (Tensor.t1 ([qb, kb, vb].flatten)) = _
    simp
  unfold mergerStep convert_qkv_weights
  rw [hqw, hkw, hvw, hqb, hkb, hvb]
  simp only [Option.bind_eq_bind, Option.some_bind, hw, hb]
  rfl

/-- Instantiation of fusedMergerWritesConcatTranspose on the concrete
one-layer checkpoint fragment. -/
theorem fusedMergerWritesConcatTransposeInst :
    mergerStep qkvParamsInst "backbone" 0 =
      some [("encoder.all_encoder_layers.0.attn_qkv.weight",
              .t2 [[1, 2], [3, 4], [5, 6]]),
            ("encoder.all_encoder_layers.0.attn_qkv.bias", .t1 [7, 8, 9])] :=
  (fusedMergerWritesConcatTranspose "backbone" (Or.inl rfl) 0 qkvParamsInst
    [[1], [2]] [[3], [4]] [[5], [6]] [7] [8] [9]
    (by decide) (by decide) (by decide) (by decide) (by decide) (by decide)
    rfl rfl).trans (by decide)

/-- C1: for every recognized role, the completeness check of lines 371-375
passes exactly when every target key not touched by the per-key loop, not
written by the merger loop, and (for the generator role) not in the tied
disc_embed_params set, matches the fused-projection naming pattern. -/
theorem completenessValidatorSpec (allKeys touched : List String) (ct : String)
    (numLayers : Nat) (hct : roleValid ct) :
    validatorPasses (remainingKeys allKeys touched) ct = true ↔
      ∀ k ∈ allKeys, k ∉ touched → k ∉ mergerFilled ct numLayers →
        (ct = "gen" → k ∉ discEmbedParams) → fusedPattern k = true := by
  clear hct
  unfold validatorPasses remainingKeys
  rw [List.all_eq_true]
  constructor
  · intro h k hkA hkT hkM hkE
    have hkmem : k ∈ allKeys.filter fun k => !(touched.contains k) := by
      rw [List.mem_filter]
      exact ⟨hkA, by simp [List.elem_iff, hkT]⟩
    have hk := h k hkmem
    rw [Bool.or_eq_true] at hk
    rcases hk with h1 | h2
    · rw [Bool.and_eq_true] at h1
      have hgen : ct = "gen" := by simpa using h1.1
      have hdisc : k ∈ discEmbedParams := by
        simpa [List.elem_iff] using h1.2
      exact absurd hdisc (hkE hgen)
    · exact h2
  · intro h k hk
    rw [List.mem_filter] at hk
    obtain ⟨hkA, hkT'⟩ := hk
    have hkT : k ∉ touched := by simpa [List.elem_iff] using hkT'
    rw [Bool.or_eq_true]
    by_cases hkM : k ∈ mergerFilled ct numLayers
    · exact Or.inr (mem_mergerFilled_fused ct numLayers k hkM)
    · by_cases hg : ct = "gen" ∧ k ∈ discEmbedParams
      · refine Or.inl ?_
        rw [Bool.and_eq_true]
        exact ⟨by simp [hg.1], by simp [List.elem_iff, hg.2]⟩
      · exact Or.inr (h k hkA hkT hkM fun h1 h2 => hg ⟨h1, h2⟩)

set_option maxHeartbeats 1000000 in
/-- Instantiation of completenessValidatorSpec: with one fused key left over
and one embedding key touched, the backbone validation passes. -/
theorem completenessValidatorSpecInst :
    validatorPasses
      (remainingKeys ["encoder.all_encoder_layers.0.attn_qkv.weight", "word_embed.weight"]
        ["word_embed.weight"]) "backbone" = true :=
  (completenessValidatorSpec
    ["encoder.all_encoder_layers.0.attn_qkv.weight", "word_embed.weight"]
    ["word_embed.weight"] "backbone" 1 (Or.inl rfl)).mpr (by decide)

set_option maxHeartbeats 4000000 in
/-- C7: the rewrite-rule list is order sensitive: CONVERT_MAP_PERM holds the
same rules as CONVERT_MAP in a different order, yet on the crafted layer-norm
name the two orders rewrite to different targets. -/
theorem convertMapOrderSensitive :
    List.Perm CONVERT_MAP_PERM CONVERT_MAP ∧
    applyRules CONVERT_MAP orderSensName ≠ applyRules CONVERT_MAP_PERM orderSensName := by
  constructor
  · decide
  · decide

end ElectraConvert
